import Mathlib

/-!
Verification of the aggregation pipeline of the HDB resale-value dashboard
(`src/main.py`).

The script is a single pandas/streamlit program.  We embed its data
transformations shallowly: the transaction table is a `List Row`, pandas
Series/DataFrame operations become list operations, rational numbers stand for
the (exactly representable) numeric values, and IEEE non-finite results
(`NaN`, `±inf`) produced by pandas' float division are made explicit through
the `FVal` type.  Operations that raise in pandas (e.g. `idxmax` on an empty
Series) return `Except`.
-/

namespace HDB

/-- A row of the loaded transaction table (after the load-time normalization at
`main.py` lines 9-12: `floor_area_sf` and `resale_psf` have been ceiled to
integers and `year` cast to an integer type). -/
structure Row where
  year : ℤ
  year_quarter : String
  year_month : String
  town : String
  flat_type : String
  block : String
  street_name : String
  storey_range_bin : String
  geographical_location : String
  estate_type : String
  flat_model : String
  remaining_lease : String
  lease_commence_bin : String
  lease_commence_date : ℤ
  resale_price : ℚ
  resale_psf : ℤ
  floor_area_sf : ℤ
deriving DecidableEq

/-- A row as it appears in the raw CSV, before the load-time normalization:
`floor_area_sf`, `resale_psf` and `year` are still raw (possibly fractional)
numeric values. -/
structure RawRow where
  year : ℚ
  year_quarter : String
  year_month : String
  town : String
  flat_type : String
  block : String
  street_name : String
  storey_range_bin : String
  geographical_location : String
  estate_type : String
  flat_model : String
  remaining_lease : String
  lease_commence_bin : String
  lease_commence_date : ℤ
  resale_price : ℚ
  resale_psf : ℚ
  floor_area_sf : ℚ
deriving DecidableEq

/-- Load-time normalization (`main.py` lines 10-12):
`df['floor_area_sf'] = np.ceil(df['floor_area_sf'])`,
`df['resale_psf'] = np.ceil(df['resale_psf'])`,
`df['year'] = df['year'].astype(int)`.  The integer cast truncates; the years
in the data are nonnegative integral values, for which truncation and floor
agree, so the cast is modelled by the floor. -/
def normalize (r : RawRow) : Row :=
  { year := ⌊r.year⌋
    year_quarter := r.year_quarter
    year_month := r.year_month
    town := r.town
    flat_type := r.flat_type
    block := r.block
    street_name := r.street_name
    storey_range_bin := r.storey_range_bin
    geographical_location := r.geographical_location
    estate_type := r.estate_type
    flat_model := r.flat_model
    remaining_lease := r.remaining_lease
    lease_commence_bin := r.lease_commence_bin
    lease_commence_date := r.lease_commence_date
    resale_price := r.resale_price
    resale_psf := ⌈r.resale_psf⌉
    floor_area_sf := ⌈r.floor_area_sf⌉ }

/-- The year-range filter (`main.py` line 67):
`df_filter_year = df[(df['year'] >= start_year) & (df['year'] <= end_year)]`. -/
def df_filter_year (rows : List Row) (start_year end_year : ℤ) : List Row :=
  rows.filter (fun r => decide (start_year ≤ r.year) && decide (r.year ≤ end_year))

/-- The ways the extremum lookups can fail.  `valueError` is what pandas'
`idxmax`/`idxmin` raise on an empty Series (an unhandled exception in
`main.py`); `emptySelectionError` is the guarded error the specification
describes (no such guard exists anywhere in the source). -/
inductive SelError where
  | valueError
  | emptySelectionError
deriving DecidableEq

/-- Highest-PSF transaction (`main.py` lines 88-89):
`df_filter_year.loc[df_filter_year['resale_psf'].idxmax()]`.  `idxmax` returns
the first index attaining the maximum, and raises `ValueError` on an empty
column; the code does not guard against that. -/
def tx_highest_psf : List Row → Except SelError Row
  | [] => .error .valueError
  | r :: rs => .ok ((r :: rs).foldl (fun best x =>
      if best.resale_psf < x.resale_psf then x else best) r)

/-- Lowest-PSF transaction (`main.py` lines 103-104):
`df_filter_year.loc[df_filter_year['resale_psf'].idxmin()]`, again unguarded. -/
def tx_lowest_psf : List Row → Except SelError Row
  | [] => .error .valueError
  | r :: rs => .ok ((r :: rs).foldl (fun best x =>
      if x.resale_psf < best.resale_psf then x else best) r)

/-- A concrete transaction used to instantiate the theorems. -/
def sampleRow : Row :=
  { year := 2020
    year_quarter := "2020-Q1"
    year_month := "2020-01"
    town := "BEDOK"
    flat_type := "4 ROOM"
    block := "101"
    street_name := "BEDOK NORTH RD"
    storey_range_bin := "01-05"
    geographical_location := "East"
    estate_type := "Mature"
    flat_model := "Model A"
    remaining_lease := "60 years"
    lease_commence_bin := "1980-1989"
    lease_commence_date := 1982
    resale_price := 400000
    resale_psf := 450
    floor_area_sf := 968 }

/-- A second concrete transaction, in another year and town. -/
def sampleRow2 : Row :=
  { sampleRow with
    year := 2021
    year_quarter := "2021-Q1"
    year_month := "2021-01"
    town := "PUNGGOL"
    geographical_location := "North-East"
    resale_price := 500000
    resale_psf := 550 }

/-- Linear interpolation between order statistics of an already-sorted list
`s`, at fractional position `h` (`0 ≤ h ≤ s.length - 1`): with `i = ⌊h⌋`, the
value is `s[i] + (h - i) * (s[i+1] - s[i])`.  This is numpy/pandas'
`interpolation='linear'` convention used by `Series.quantile`. -/
def interp (s : List ℚ) (h : ℚ) : ℚ :=
  let i : ℕ := (Int.floor h).toNat
  let lo := s.getD i 0
  let hi := s.getD (i + 1) lo
  lo + (h - (i : ℚ)) * (hi - lo)

/-- `Series.quantile q` with the default linear interpolation (used by the
`q1`/`q3` aggregations at `main.py` lines 121 and 123): sort the values and
interpolate at position `q * (n - 1)`.  pandas returns NaN on an empty series;
the aggregator only ever applies it to nonempty groups, and we return `0`
there. -/
def quantile (xs : List ℚ) (q : ℚ) : ℚ :=
  let s := xs.insertionSort (· ≤ ·)
  if s.length = 0 then 0 else interp s (q * ((s.length : ℚ) - 1))

/-- `Series.median` (`main.py` line 122 and the various groupby-median
aggregations): the 50th percentile with linear interpolation, i.e. the middle
element for odd counts and the mean of the two middle elements for even
counts. -/
def medianQ (xs : List ℚ) : ℚ := quantile xs (1 / 2)

/-- One output row of the interval-stat aggregator `df_stats`
(`main.py` lines 120-124). -/
structure StatRow (K : Type) where
  bucket : K
  q1 : ℚ
  med : ℚ
  q3 : ℚ
deriving DecidableEq

/-- The distinct bucket keys of the filtered table, in ascending order —
pandas `groupby` sorts group keys ascending by default. -/
def statKeys {K : Type} [LinearOrder K] [DecidableEq K]
    (rows : List Row) (bucket : Row → K) : List K :=
  ((rows.map bucket).dedup).insertionSort (· ≤ ·)

/-- The metric values of the rows falling in bucket `k`. -/
def groupVals {K : Type} [DecidableEq K]
    (rows : List Row) (bucket : Row → K) (metric : Row → ℚ) (k : K) : List ℚ :=
  (rows.filter (fun r => decide (bucket r = k))).map metric

/-- The interval-stat aggregator (`main.py` lines 120-124):
`df_filter_year.groupby([interval])[interest].agg(q1=quantile .25,
median='median', q3=quantile .75).reset_index()` — one row per distinct bucket
value, keys sorted ascending. -/
def df_stats {K : Type} [LinearOrder K] [DecidableEq K]
    (rows : List Row) (bucket : Row → K) (metric : Row → ℚ) : List (StatRow K) :=
  (statKeys rows bucket).map (fun k =>
    { bucket := k
      q1 := quantile (groupVals rows bucket metric k) (1 / 4)
      med := medianQ (groupVals rows bucket metric k)
      q3 := quantile (groupVals rows bucket metric k) (3 / 4) })

/-- The result of a pandas float computation: a finite value, `+inf`, `-inf`,
or `NaN`.  pandas division never raises; dividing by zero produces a
non-finite float instead. -/
inductive FVal where
  | fin : ℚ → FVal
  | pinf
  | ninf
  | nan
deriving DecidableEq

/-- The relative-change rebasing `(x - base) / base * 100` (`main.py`
lines 128-133 and every `Relative`-mode transform): float semantics, so a zero
base yields `NaN` for `x = base = 0` (the first bucket) and `±inf` otherwise,
never an exception. -/
def relVal (base x : ℚ) : FVal :=
  if base = 0 then
    if 0 < x then .pinf else if x < 0 then .ninf else .nan
  else .fin ((x - base) / base * 100)

/-- One row of the relative-mode interval-stat table. -/
structure RelRow (K : Type) where
  bucket : K
  q1 : FVal
  med : FVal
  q3 : FVal
deriving DecidableEq

/-- Relative mode of the interval-stat aggregator (`main.py` lines 126-133):
each of the `q1`/`median`/`q3` columns is rebased against its own value at the
first row (`.iloc[0]`) of the bucket-sorted table. -/
def df_stats_rel {K : Type} [LinearOrder K] [DecidableEq K]
    (rows : List Row) (bucket : Row → K) (metric : Row → ℚ) : List (RelRow K) :=
  match df_stats rows bucket metric with
  | [] => []
  | s0 :: rest => (s0 :: rest).map (fun s =>
      { bucket := s.bucket
        q1 := relVal s0.q1 s.q1
        med := relVal s0.med s.med
        q3 := relVal s0.q3 s.q3 })

/-- Looking a year up in the yearly median table (the indexed Series produced
by `merged.set_index('year')`-style alignment in the heatmap loops): the years
of a groupby result are distinct, so association-list lookup is exact. -/
def lookupYear : List (ℤ × ℚ) → ℤ → Option ℚ
  | [], _ => none
  | p :: t, y => if p.1 = y then some p.2 else lookupYear t y

/-- The yearly median resale-price table (`main.py` lines 363-366 / 427-430):
`df_filter_year.groupby('year')['resale_price'].median()`, one `(year,
median_price)` row per distinct year, years in ascending order. -/
def grouped_data (rows : List Row) : List (ℤ × ℚ) :=
  (((rows.map Row.year).dedup).insertionSort (· ≤ ·)).map (fun y =>
    (y, medianQ ((rows.filter (fun r => decide (r.year = y))).map Row.resale_price)))

/-- The raw percent change `(mf - m) / m * 100` (`main.py` lines 378-379),
with float division semantics at a zero base. -/
def percentChange (m mf : ℚ) : FVal :=
  if m = 0 then
    if 0 < mf then .pinf else if mf < 0 then .ninf else .nan
  else .fin ((mf - m) / m * 100)

/-- One cell of the percent-change heatmap (`main.py` lines 374-382): the
inner self-join `grouped_data.merge(grouped_data, left_on=year+diff,
right_on='year')` defines the cell only when both `y` and `y + d` carry a
median; a missing pair leaves `NaN` in the column. -/
def heatmap_cell (g : List (ℤ × ℚ)) (y : ℤ) (d : ℕ) : FVal :=
  match lookupYear g y, lookupYear g (y + (d : ℤ)) with
  | some m, some mf => percentChange m mf
  | _, _ => .nan

/-- The row of heatmap cells for start year `y`, over the durations
`range(5, 20)` (`main.py` line 369). -/
def heatmap_row (g : List (ℤ × ℚ)) (y : ℤ) : List FVal :=
  (List.range' 5 15).map (fun d => heatmap_cell g y d)

/-- `heatmap_data.dropna(how='all')` (`main.py` line 384): the index of the
cleaned matrix keeps exactly the years whose row has at least one non-`NaN`
cell. -/
def heatmap_cleaned_years (g : List (ℤ × ℚ)) : List ℤ :=
  (g.map Prod.fst).filter (fun y => (heatmap_row g y).any (fun c => decide (c ≠ FVal.nan)))

/-- The annualized (CAGR) change (`main.py` lines 444-447):
`((median_price_future / median_price) ** (1 / diff) - 1) * 100`, a
real-valued exponentiation. -/
noncomputable def annualized_change (m mf : ℚ) (d : ℕ) : ℝ :=
  (((mf : ℝ) / (m : ℝ)) ^ ((1 : ℝ) / (d : ℝ)) - 1) * 100

/-- One cell of the annualized-change heatmap (`main.py` lines 438-450),
defined by the same inner self-join as the raw-change heatmap. -/
noncomputable def cagr_cell (g : List (ℤ × ℚ)) (y : ℤ) (d : ℕ) : Option ℝ :=
  match lookupYear g y, lookupYear g (y + (d : ℤ)) with
  | some m, some mf => some (annualized_change m mf d)
  | _, _ => none

/-- `smooth_window = 5` (`main.py` line 77). -/
def smooth_window : ℕ := 5

/-- Ordered insertion for the Boolean-comparator insertion sort below. -/
def insertLe {α : Type} (le : α → α → Bool) (x : α) : List α → List α
  | [] => [x]
  | y :: ys => if le x y then x :: y :: ys else y :: insertLe le x ys

/-- Insertion sort with a Boolean comparator, used to model the lexicographic
key ordering of a multi-key pandas `groupby`. -/
def sortB {α : Type} (le : α → α → Bool) : List α → List α
  | [] => []
  | x :: xs => insertLe le x (sortB le xs)

/-- Lexicographic comparison of `(bucket, group)` keys. -/
def pairLeB {K : Type} [LinearOrder K] (a b : K × String) : Bool :=
  decide (a.1 < b.1) || (decide (a.1 = b.1) && decide (a.2 ≤ b.2))

/-- Lexicographic comparison of `(bucket, location, town)` keys. -/
def lex3Le {K : Type} [LinearOrder K] (a b : K × String × String) : Bool :=
  decide (a.1 < b.1) ||
    (decide (a.1 = b.1) &&
      (decide (a.2.1 < b.2.1) || (decide (a.2.1 = b.2.1) && decide (a.2.2 ≤ b.2.2))))

/-- The plain two-key group-breakdown aggregator
(`main.py` lines 503-504, 727-728, 814-815, 854-855):
`df_filter_year.groupby([interval, dim])[interest].median().reset_index()`,
one `(bucket, dim-value, median)` row per key pair, keys sorted
lexicographically; no smoothing is applied here. -/
def df_sub_by {K : Type} [LinearOrder K] [DecidableEq K]
    (rows : List Row) (bucket : Row → K) (metric : Row → ℚ)
    (dim : Row → String) : List (K × String × ℚ) :=
  (sortB pairLeB ((rows.map (fun r => (bucket r, dim r))).dedup)).map (fun key =>
    (key.1, key.2, medianQ ((rows.filter (fun r =>
      decide (bucket r = key.1) && decide (dim r = key.2))).map metric)))

/-- One row of the three-key `(bucket, location, town)` grouped table. -/
structure SubRow (K : Type) where
  bucket : K
  loc : String
  town : String
  val : ℚ
deriving DecidableEq

/-- The three-key grouped table feeding the per-region town charts
(`main.py` lines 536-537): `df_filter_year.groupby([interval,
'geographical_location', 'town'])[interest].median().reset_index()`; keys are
sorted lexicographically (bucket first, so each town's rows appear in bucket
order). -/
def df_sub_town {K : Type} [LinearOrder K] [DecidableEq K]
    (rows : List Row) (bucket : Row → K) (metric : Row → ℚ) : List (SubRow K) :=
  (sortB lex3Le ((rows.map (fun r =>
      (bucket r, r.geographical_location, r.town))).dedup)).map (fun key =>
    { bucket := key.1
      loc := key.2.1
      town := key.2.2
      val := medianQ ((rows.filter (fun r =>
        decide (bucket r = key.1) && decide (r.geographical_location = key.2.1) &&
          decide (r.town = key.2.2))).map metric) })

/-- Restriction to one region (`main.py` lines 544-545 etc.):
`df_sub[df_sub['geographical_location'] == location]`. -/
def df_geo {K : Type} [LinearOrder K] [DecidableEq K]
    (rows : List Row) (bucket : Row → K) (metric : Row → ℚ)
    (location : String) : List (SubRow K) :=
  (df_sub_town rows bucket metric).filter (fun p => decide (p.loc = location))

/-- The value series of one town, in table order:
`df_geo.groupby('town')` collects each town's rows in their existing
(bucket-sorted) order. -/
def townVals {K : Type} (l : List (SubRow K)) (t : String) : List ℚ :=
  (l.filter (fun p => decide (p.town = t))).map SubRow.val

/-- The trailing window of width at most `w` ending a list: what
`x.rolling(window=w, min_periods=1)` sees at the last position of the list. -/
def winLast (w : ℕ) (l : List ℚ) : List ℚ := l.drop (l.length - w)

/-- Rolling median over a series that already has prefix `pre` behind it: at
each position the median of the trailing window of up to `w` observations
(including the current one) is produced — `min_periods=1`, so every position
yields a value. -/
def rollingMedianFrom (w : ℕ) (pre : List ℚ) : List ℚ → List ℚ
  | [] => []
  | x :: xs => medianQ (winLast w (pre ++ [x])) :: rollingMedianFrom w (pre ++ [x]) xs

/-- `x.rolling(window=w, min_periods=1).median()` (`main.py` lines 548-549):
a trailing rolling median; the first `w - 1` positions use a shrinking
window. -/
def rollingMedian (w : ℕ) (xs : List ℚ) : List ℚ := rollingMedianFrom w [] xs

/-- `df_geo.groupby('town')[interest].transform(rolling median)`: each row's
value is replaced by the median of the trailing window of up to `w` values of
its own town, up to and including the row itself.  `seen` is the already
processed prefix of the table. -/
def trAux {K : Type} (w : ℕ) (seen : List (SubRow K)) : List (SubRow K) → List (SubRow K)
  | [] => []
  | p :: ps =>
      { p with val := medianQ (winLast w (townVals (seen ++ [p]) p.town)) } ::
        trAux w (seen ++ [p]) ps

/-- The groupby-transform rolling smoothing applied to the whole grouped
table. -/
def transformRolling {K : Type} (w : ℕ) (l : List (SubRow K)) : List (SubRow K) :=
  trAux w [] l

/-- The smoothed per-region town breakdown (`main.py` lines 548-549, repeated
for each region): the region-filtered grouped table with each town's median
series passed through the trailing rolling median of window `smooth_window`. -/
def breakdown_town {K : Type} [LinearOrder K] [DecidableEq K]
    (rows : List Row) (bucket : Row → K) (metric : Row → ℚ)
    (location : String) : List (SubRow K) :=
  transformRolling smooth_window (df_geo rows bucket metric location)

/-- One CSV cell of the export surface: a string, integer or rational value. -/
inductive Cell where
  | s : String → Cell
  | i : ℤ → Cell
  | q : ℚ → Cell
deriving DecidableEq

/-- The fixed export column order (`main.py` lines 891-892). -/
def export_header : List String :=
  ["year_month", "estate_type", "geographical_location", "town", "flat_type",
   "block", "street_name", "storey_range_bin", "flat_model", "floor_area_sf",
   "lease_commence_date", "remaining_lease", "resale_price", "resale_psf"]

/-- One exported record: the row's fields in the fixed column order. -/
def exportRecord (r : Row) : List Cell :=
  [.s r.year_month, .s r.estate_type, .s r.geographical_location, .s r.town,
   .s r.flat_type, .s r.block, .s r.street_name, .s r.storey_range_bin,
   .s r.flat_model, .i r.floor_area_sf, .i r.lease_commence_date,
   .s r.remaining_lease, .q r.resale_price, .i r.resale_psf]

/-- The download surface (`main.py` lines 890-901): `df_rearranged =
df[selected_columns]` projects the FULL unfiltered base table `df` — not
`df_filter_year` — and `to_csv` serialises it; the selected year range plays
no role. -/
def download_csv (base : List Row) (_start_year _end_year : ℤ) :
    List String × List (List Cell) :=
  (export_header, base.map exportRecord)

/-- A raw CSV row used to instantiate the normalization theorem:
fractional area and PSF, integral year. -/
def sampleRaw : RawRow :=
  { year := 2020
    year_quarter := "2020-Q1"
    year_month := "2020-01"
    town := "BEDOK"
    flat_type := "4 ROOM"
    block := "101"
    street_name := "BEDOK NORTH RD"
    storey_range_bin := "01-05"
    geographical_location := "East"
    estate_type := "Mature"
    flat_model := "Model A"
    remaining_lease := "60 years"
    lease_commence_bin := "1980-1989"
    lease_commence_date := 1982
    resale_price := 400000
    resale_psf := 4492 / 10
    floor_area_sf := 9673 / 10 }

/-- C7: the range filter keeps exactly the rows whose year lies in the
inclusive interval `[start_year, end_year]`, and the base table is untouched
(the result is a sublist of the unchanged input). -/
theorem df_filter_year_spec (rows : List Row) (s e : ℤ) (_hse : s ≤ e) (r : Row) :
    (r ∈ df_filter_year rows s e ↔ r ∈ rows ∧ s ≤ r.year ∧ r.year ≤ e) ∧
    (df_filter_year rows s e).Sublist rows := by
  constructor
  · simp [df_filter_year, List.mem_filter, and_assoc]
  · exact List.filter_sublist _

/-- Witness for C7 at a concrete table and year range. -/
theorem df_filter_year_spec_witness :
    (sampleRow ∈ df_filter_year [sampleRow, sampleRow2] 2019 2020 ↔
      sampleRow ∈ [sampleRow, sampleRow2] ∧ 2019 ≤ sampleRow.year ∧ sampleRow.year ≤ 2020) ∧
    (df_filter_year [sampleRow, sampleRow2] 2019 2020).Sublist [sampleRow, sampleRow2] :=
  df_filter_year_spec [sampleRow, sampleRow2] 2019 2020 (by norm_num) sampleRow

/-- C8: after load-time normalization `floor_area_sf` and `resale_psf` are the
integer ceilings of the raw values (`raw ≤ v < raw + 1`), and an integral raw
year is stored losslessly as an integer. -/
theorem normalize_spec (r : RawRow) :
    (r.floor_area_sf ≤ ((normalize r).floor_area_sf : ℚ) ∧
      ((normalize r).floor_area_sf : ℚ) < r.floor_area_sf + 1) ∧
    (r.resale_psf ≤ ((normalize r).resale_psf : ℚ) ∧
      ((normalize r).resale_psf : ℚ) < r.resale_psf + 1) ∧
    (r.year.den = 1 → ((normalize r).year : ℚ) = r.year) := by
  refine ⟨⟨Int.le_ceil _, Int.ceil_lt_add_one _⟩,
          ⟨Int.le_ceil _, Int.ceil_lt_add_one _⟩, fun h => ?_⟩
  have h1 : ((r.year.num : ℚ)) = r.year := (Rat.den_eq_one_iff _).mp h
  show ((⌊r.year⌋ : ℤ) : ℚ) = r.year
  rw [← h1, Int.floor_intCast]

/-- Witness for C8 at a concrete raw row (area `967.3`, PSF `449.2`,
year `2020`). -/
theorem normalize_spec_witness :
    (sampleRaw.floor_area_sf ≤ ((normalize sampleRaw).floor_area_sf : ℚ) ∧
      ((normalize sampleRaw).floor_area_sf : ℚ) < sampleRaw.floor_area_sf + 1) ∧
    (sampleRaw.resale_psf ≤ ((normalize sampleRaw).resale_psf : ℚ) ∧
      ((normalize sampleRaw).resale_psf : ℚ) < sampleRaw.resale_psf + 1) ∧
    ((normalize sampleRaw).year : ℚ) = sampleRaw.year := by
  obtain ⟨h1, h2, h3⟩ := normalize_spec sampleRaw
  exact ⟨h1, h2, h3 (by norm_num [sampleRaw])⟩

/-- C2 counterexample: on an empty selection the extremum lookups fail with
pandas' unhandled `ValueError` (from `idxmax`/`idxmin` on an empty column) —
NOT with the `EmptySelectionError` the specification postulates; no such guard
exists in the source. -/
theorem tx_psf_empty_counterexample :
    tx_highest_psf ([] : List Row) ≠ Except.error SelError.emptySelectionError ∧
    tx_lowest_psf ([] : List Row) ≠ Except.error SelError.emptySelectionError := by
  constructor <;> · intro h; injection h with h'; exact SelError.noConfusion h'

/-- C2 (amended): for every year-range selection matching zero rows, the
highest- and lowest-PSF lookups fail with the unhandled pandas `ValueError`
raised by `idxmax`/`idxmin` on the empty PSF column (there is no
`EmptySelectionError` guard in the code). -/
theorem tx_psf_empty_unhandled (rows : List Row) (s e : ℤ)
    (h : df_filter_year rows s e = []) :
    tx_highest_psf (df_filter_year rows s e) = .error .valueError ∧
    tx_lowest_psf (df_filter_year rows s e) = .error .valueError := by
  rw [h]; exact ⟨rfl, rfl⟩

/-- Witness for the amended C2: the concrete table holds only 2020/2021
transactions, so the range `[1990, 1991]` selects zero rows. -/
theorem tx_psf_empty_unhandled_witness :
    tx_highest_psf (df_filter_year [sampleRow, sampleRow2] 1990 1991) =
      .error .valueError ∧
    tx_lowest_psf (df_filter_year [sampleRow, sampleRow2] 1990 1991) =
      .error .valueError :=
  tx_psf_empty_unhandled [sampleRow, sampleRow2] 1990 1991
    (by simp [df_filter_year, sampleRow, sampleRow2])

/-- C10: the download surface serialises the full unfiltered base table in
the fixed column order, so its output does not depend on the selected year
range; each record has exactly the header's fourteen cells. -/
theorem download_csv_spec (base : List Row) (s1 e1 s2 e2 : ℤ) :
    download_csv base s1 e1 = download_csv base s2 e2 ∧
    (download_csv base s1 e1).1 = export_header ∧
    (download_csv base s1 e1).2 = base.map exportRecord ∧
    ∀ r : Row, (exportRecord r).length = export_header.length :=
  ⟨rfl, rfl, rfl, fun _ => rfl⟩

/-- Rebasing a value against itself gives exactly `0`, except at a zero base
where float `0/0` gives `NaN`. -/
theorem relVal_self (x : ℚ) : relVal x x = if x = 0 then FVal.nan else .fin 0 := by
  unfold relVal
  by_cases hx : x = 0
  · simp [hx]
  · simp [hx]

/-- A nonempty table has at least one bucket key. -/
theorem statKeys_ne_nil {K : Type} [LinearOrder K] [DecidableEq K]
    (rows : List Row) (b : Row → K) (h : rows ≠ []) : statKeys rows b ≠ [] := by
  intro hs
  unfold statKeys at hs
  have hperm := List.perm_insertionSort (α := K) (· ≤ ·) ((rows.map b).dedup)
  rw [hs] at hperm
  exact h (List.map_eq_nil_iff.mp ((List.dedup_eq_nil _).mp hperm.symm.eq_nil))

/-- C3: for a nonempty filtered table, the relative-mode interval-stat output
exists, and at the first bucket each of `q1`/`median`/`q3` is exactly `0` —
unless that column's first-bucket value is exactly `0`, in which case the
float division produces `NaN`, propagated into the output rather than an
exception (the rebasing function is total). -/
theorem df_stats_rel_first {K : Type} [LinearOrder K] [DecidableEq K]
    (rows : List Row) (b : Row → K) (m : Row → ℚ) (h : rows ≠ []) :
    df_stats_rel rows b m ≠ [] ∧
    ∀ p ∈ (df_stats_rel rows b m).head?, ∀ s ∈ (df_stats rows b m).head?,
      p.q1 = (if s.q1 = 0 then FVal.nan else .fin 0) ∧
      p.med = (if s.med = 0 then FVal.nan else .fin 0) ∧
      p.q3 = (if s.q3 = 0 then FVal.nan else .fin 0) := by
  have hkeys : statKeys rows b ≠ [] := statKeys_ne_nil rows b h
  obtain ⟨k0, krest, hk⟩ := List.exists_cons_of_ne_nil hkeys
  obtain ⟨s0, srest, hs⟩ : ∃ s0 srest, df_stats rows b m = s0 :: srest := by
    unfold df_stats
    rw [hk, List.map_cons]
    exact ⟨_, _, rfl⟩
  constructor
  · simp only [df_stats_rel, hs]
    simp
  · intro p hp s hsm
    simp only [df_stats_rel, hs, List.map_cons, List.head?_cons, Option.mem_def,
      Option.some.injEq] at hp hsm
    subst hp
    subst hsm
    exact ⟨relVal_self _, relVal_self _, relVal_self _⟩

/-- Witness for C3 on a one-row table. -/
theorem df_stats_rel_first_witness :
    df_stats_rel [sampleRow] (fun r => r.year) (fun r => r.resale_price) ≠ [] ∧
    ∀ p ∈ (df_stats_rel [sampleRow] (fun r => r.year) (fun r => r.resale_price)).head?,
      ∀ s ∈ (df_stats [sampleRow] (fun r => r.year) (fun r => r.resale_price)).head?,
      p.q1 = (if s.q1 = 0 then FVal.nan else .fin 0) ∧
      p.med = (if s.med = 0 then FVal.nan else .fin 0) ∧
      p.q3 = (if s.q3 = 0 then FVal.nan else .fin 0) :=
  df_stats_rel_first [sampleRow] (fun r => r.year) (fun r => r.resale_price) (by simp)

/-- C1: when both `median[Y]` and `median[Y+d]` exist in the yearly median
table and are positive, the CAGR heatmap cell holds
`((median[Y+d]/median[Y]) ^ (1/d) - 1) * 100`, and that annualized change
satisfies `(1 + annualized_change/100) ^ d = median[Y+d]/median[Y]` exactly
(the real-number idealization of the float computation). -/
theorem cagr_cell_spec (g : List (ℤ × ℚ)) (y : ℤ) (d : ℕ) (m mf : ℚ)
    (hm : lookupYear g y = some m) (hmf : lookupYear g (y + (d : ℤ)) = some mf)
    (hmp : 0 < m) (hmfp : 0 < mf) (h5 : 5 ≤ d) (_h19 : d ≤ 19) :
    cagr_cell g y d = some (annualized_change m mf d) ∧
    (1 + annualized_change m mf d / 100) ^ d = (mf : ℝ) / (m : ℝ) := by
  constructor
  · unfold cagr_cell
    rw [hm, hmf]
  · have hr : (0 : ℝ) < (mf : ℝ) / (m : ℝ) :=
      div_pos (by exact_mod_cast hmfp) (by exact_mod_cast hmp)
    have hd0 : ((d : ℕ) : ℝ) ≠ 0 := Nat.cast_ne_zero.mpr (by omega)
    have h1 : 1 + annualized_change m mf d / 100 =
        ((mf : ℝ) / (m : ℝ)) ^ ((1 : ℝ) / (d : ℝ)) := by
      unfold annualized_change
      ring
    rw [h1, ← Real.rpow_natCast (((mf : ℝ) / (m : ℝ)) ^ ((1 : ℝ) / (d : ℝ))) d,
      ← Real.rpow_mul hr.le, one_div, inv_mul_cancel₀ hd0, Real.rpow_one]

/-- Witness for C1: medians 100 at year 2015 and 125 at year 2020,
duration 5. -/
theorem cagr_cell_spec_witness :
    cagr_cell [((2015 : ℤ), (100 : ℚ)), (2020, 125)] 2015 5 =
      some (annualized_change 100 125 5) ∧
    (1 + annualized_change 100 125 5 / 100) ^ 5 = ((125 : ℚ) : ℝ) / ((100 : ℚ) : ℝ) :=
  cagr_cell_spec _ _ _ _ _ (by norm_num [lookupYear]) (by norm_num [lookupYear])
    (by norm_num) (by norm_num) (by norm_num) (by norm_num)

/-- A year is absent from the median table exactly when its lookup misses. -/
theorem lookupYear_none_iff (g : List (ℤ × ℚ)) (y : ℤ) :
    lookupYear g y = none ↔ y ∉ g.map Prod.fst := by
  induction g with
  | nil => simp [lookupYear]
  | cons p t ih =>
    obtain ⟨a, v⟩ := p
    by_cases hp : a = y
    · subst hp
      simp [lookupYear]
    · simp only [lookupYear, if_neg hp, ih, List.map_cons, List.mem_cons]
      constructor
      · intro hny hor
        rcases hor with h1 | h2
        · exact hp h1.symm
        · exact hny h2
      · intro hn h2
        exact hn (Or.inr h2)

/-- A successful lookup returns an entry of the table. -/
theorem lookupYear_mem {g : List (ℤ × ℚ)} {y : ℤ} {m : ℚ}
    (h : lookupYear g y = some m) : (y, m) ∈ g := by
  induction g with
  | nil => simp [lookupYear] at h
  | cons p t ih =>
    obtain ⟨a, v⟩ := p
    rw [lookupYear] at h
    split_ifs at h with hp
    · subst hp
      cases Option.some.inj h
      exact List.mem_cons_self _ _
    · exact List.mem_cons_of_mem _ (ih h)

/-- With a nonzero base, the percent change is a finite value, not `NaN`. -/
theorem percentChange_ne_nan {m mf : ℚ} (hm : m ≠ 0) :
    percentChange m mf ≠ FVal.nan := by
  unfold percentChange
  simp [hm]

/-- C4: in the change heatmaps, provided the yearly medians are positive (they
are medians of resale prices), the cell `(Y, d)` for `d ∈ [5, 19]` is defined
(non-`NaN`) iff both `Y` and `Y + d` appear in the yearly median table — the
inner self-join leaves `NaN`, never `0`, where the future year is absent —
and `dropna(how='all')` keeps exactly the years with at least one defined
cell. -/
theorem heatmap_defined_iff (g : List (ℤ × ℚ)) (hpos : ∀ p ∈ g, 0 < p.2) :
    (∀ (y : ℤ) (d : ℕ), 5 ≤ d → d ≤ 19 →
      (heatmap_cell g y d ≠ FVal.nan ↔
        y ∈ g.map Prod.fst ∧ y + (d : ℤ) ∈ g.map Prod.fst)) ∧
    (∀ y : ℤ, y ∈ heatmap_cleaned_years g ↔
      y ∈ g.map Prod.fst ∧
        ∃ d : ℕ, 5 ≤ d ∧ d ≤ 19 ∧ y + (d : ℤ) ∈ g.map Prod.fst) := by
  have hcell : ∀ (y : ℤ) (d : ℕ),
      heatmap_cell g y d ≠ FVal.nan ↔
        y ∈ g.map Prod.fst ∧ y + (d : ℤ) ∈ g.map Prod.fst := by
    intro y d
    cases hA : lookupYear g y with
    | none =>
      simp only [heatmap_cell, hA, ne_eq, not_true_eq_false, false_iff, not_and]
      intro hy
      exact absurd hy ((lookupYear_none_iff g y).mp hA)
    | some m =>
      cases hB : lookupYear g (y + (d : ℤ)) with
      | none =>
        simp only [heatmap_cell, hA, hB, ne_eq, not_true_eq_false, false_iff, not_and]
        intro _
        exact (lookupYear_none_iff g _).mp hB
      | some mf =>
        simp only [heatmap_cell, hA, hB, ne_eq]
        have hmm : 0 < m := hpos _ (lookupYear_mem hA)
        constructor
        · intro _
          exact ⟨List.mem_map_of_mem Prod.fst (lookupYear_mem hA),
                 List.mem_map_of_mem Prod.fst (lookupYear_mem hB)⟩
        · intro _
          exact percentChange_ne_nan (ne_of_gt hmm)
  refine ⟨fun y d _ _ => hcell y d, fun y => ?_⟩
  rw [heatmap_cleaned_years, List.mem_filter]
  constructor
  · rintro ⟨hy, hany⟩
    obtain ⟨c, hc, hcne⟩ := List.any_eq_true.mp hany
    obtain ⟨d, hd, rfl⟩ := List.mem_map.mp hc
    obtain ⟨h5, hlt⟩ := List.mem_range'_1.mp hd
    exact ⟨hy, d, h5, by omega, ((hcell y d).mp (of_decide_eq_true hcne)).2⟩
  · rintro ⟨hy, d, h5, h19, hmem⟩
    exact ⟨hy, List.any_eq_true.mpr
      ⟨heatmap_cell g y d,
        List.mem_map_of_mem _ (List.mem_range'_1.mpr ⟨h5, by omega⟩),
        decide_eq_true ((hcell y d).mpr ⟨hy, hmem⟩)⟩⟩

/-- Witness for C4: with medians at 2015 and 2020 only, the `(2015, 5)` cell
is defined. -/
theorem heatmap_defined_iff_witness :
    heatmap_cell [((2015 : ℤ), (100 : ℚ)), (2020, 125)] 2015 5 ≠ FVal.nan ↔
      (2015 : ℤ) ∈ ([((2015 : ℤ), (100 : ℚ)), (2020, 125)].map Prod.fst) ∧
      (2015 + ((5 : ℕ) : ℤ)) ∈ ([((2015 : ℤ), (100 : ℚ)), (2020, 125)].map Prod.fst) :=
  (heatmap_defined_iff _ (by norm_num [List.forall_mem_cons])).1 2015 5
    (by norm_num) (by norm_num)

theorem sorted_getD_mono {s : List ℚ} (hs : s.Sorted (· ≤ ·)) {i j : ℕ}
    (hij : i ≤ j) (hj : j < s.length) : s.getD i 0 ≤ s.getD j 0 := by
  have hi : i < s.length := lt_of_le_of_lt hij hj
  rw [List.getD_eq_getElem _ _ hi, List.getD_eq_getElem _ _ hj]
  have h := hs.rel_get_of_le (a := ⟨i, hi⟩) (b := ⟨j, hj⟩) (Fin.mk_le_mk.mpr hij)
  simpa [List.get_eq_getElem] using h

theorem getD_succ_ge {s : List ℚ} (hs : s.Sorted (· ≤ ·)) (k : ℕ) :
    s.getD k 0 ≤ s.getD (k + 1) (s.getD k 0) := by
  by_cases hk : k + 1 < s.length
  · rw [List.getD_eq_getElem _ _ hk, List.getD_eq_getElem _ _ (Nat.lt_of_succ_lt hk)]
    have h := hs.rel_get_of_le (a := ⟨k, Nat.lt_of_succ_lt hk⟩) (b := ⟨k + 1, hk⟩)
      (Fin.mk_le_mk.mpr (Nat.le_succ k))
    simpa [List.get_eq_getElem] using h
  · rw [List.getD_eq_default _ _ (Nat.le_of_not_lt hk)]

theorem interp_mono {s : List ℚ} (hs : s.Sorted (· ≤ ·)) (hne : s ≠ [])
    {a b : ℚ} (ha : 0 ≤ a) (hab : a ≤ b) (hb : b ≤ (s.length : ℚ) - 1) :
    interp s a ≤ interp s b := by
  have hlen : 1 ≤ s.length := List.length_pos.mpr hne
  have hfa0 : 0 ≤ ⌊a⌋ := Int.floor_nonneg.mpr ha
  have hfb0 : 0 ≤ ⌊b⌋ := Int.floor_nonneg.mpr (le_trans ha hab)
  simp only [interp]
  set ia := (⌊a⌋).toNat with hia
  set ib := (⌊b⌋).toNat with hib
  have hZa : ((ia : ℕ) : ℤ) = ⌊a⌋ := by rw [hia]; exact Int.toNat_of_nonneg hfa0
  have hZb : ((ib : ℕ) : ℤ) = ⌊b⌋ := by rw [hib]; exact Int.toNat_of_nonneg hfb0
  have h1a : ((ia : ℕ) : ℚ) ≤ a := by
    have h := Int.floor_le a; rw [← hZa] at h; exact_mod_cast h
  have h2a : a < ((ia : ℕ) : ℚ) + 1 := by
    have h := Int.lt_floor_add_one a; rw [← hZa] at h; exact_mod_cast h
  have h1b : ((ib : ℕ) : ℚ) ≤ b := by
    have h := Int.floor_le b; rw [← hZb] at h; exact_mod_cast h
  have hiab : ia ≤ ib := by
    have h := Int.floor_mono hab
    omega
  have hibn : ib ≤ s.length - 1 := by
    have hcast : ((s.length : ℚ) - 1) = ((s.length - 1 : ℕ) : ℚ) := by
      rw [Nat.cast_sub hlen, Nat.cast_one]
    have hfb : ⌊b⌋ ≤ ((s.length - 1 : ℕ) : ℤ) := by
      rw [← Int.floor_natCast (α := ℚ) (s.length - 1)]
      exact Int.floor_mono (by rw [← hcast]; exact hb)
    omega
  rcases eq_or_lt_of_le hiab with heq | hlt
  · -- same segment
    rw [← heq]
    have hΔ : s.getD ia 0 ≤ s.getD (ia + 1) (s.getD ia 0) := getD_succ_ge hs ia
    have hmul : (a - (ia : ℚ)) * (s.getD (ia + 1) (s.getD ia 0) - s.getD ia 0) ≤
        (b - (ia : ℚ)) * (s.getD (ia + 1) (s.getD ia 0) - s.getD ia 0) :=
      mul_le_mul_of_nonneg_right (by linarith) (by linarith)
    linarith
  · -- different segments
    have hia1n : ia + 1 < s.length := by omega
    have hibn' : ib < s.length := by omega
    have hhiA : s.getD (ia + 1) (s.getD ia 0) = s.getD (ia + 1) 0 := by
      rw [List.getD_eq_getElem _ _ hia1n, List.getD_eq_getElem _ _ hia1n]
    have hlh : s.getD ia 0 ≤ s.getD (ia + 1) 0 :=
      sorted_getD_mono hs (Nat.le_succ ia) hia1n
    have step1 : s.getD ia 0 + (a - (ia : ℚ)) * (s.getD (ia + 1) (s.getD ia 0) - s.getD ia 0) ≤
        s.getD (ia + 1) 0 := by
      rw [hhiA]
      have hmul : (a - (ia : ℚ)) * (s.getD (ia + 1) 0 - s.getD ia 0) ≤
          1 * (s.getD (ia + 1) 0 - s.getD ia 0) :=
        mul_le_mul_of_nonneg_right (by linarith) (by linarith)
      linarith
    have step2 : s.getD (ia + 1) 0 ≤ s.getD ib 0 :=
      sorted_getD_mono hs (by omega) hibn'
    have step3 : s.getD ib 0 ≤
        s.getD ib 0 + (b - (ib : ℚ)) * (s.getD (ib + 1) (s.getD ib 0) - s.getD ib 0) := by
      have hΔ : s.getD ib 0 ≤ s.getD (ib + 1) (s.getD ib 0) := getD_succ_ge hs ib
      have := mul_nonneg (by linarith : (0:ℚ) ≤ b - (ib : ℚ))
        (by linarith : (0:ℚ) ≤ s.getD (ib + 1) (s.getD ib 0) - s.getD ib 0)
      linarith
    linarith

theorem quantile_mono {xs : List ℚ} (hxs : xs ≠ []) {q q' : ℚ}
    (h0 : 0 ≤ q) (hqq : q ≤ q') (h1 : q' ≤ 1) : quantile xs q ≤ quantile xs q' := by
  simp only [quantile]
  have hlen : (xs.insertionSort (· ≤ ·)).length = xs.length :=
    (List.perm_insertionSort _ _).length_eq
  have hne : ¬((xs.insertionSort (· ≤ ·)).length = 0) := by
    rw [hlen]
    exact fun h => hxs (List.length_eq_zero.mp h)
  rw [if_neg hne, if_neg hne]
  have hn1 : (0 : ℚ) ≤ ((xs.insertionSort (· ≤ ·)).length : ℚ) - 1 := by
    have h1n : 1 ≤ (xs.insertionSort (· ≤ ·)).length := Nat.one_le_iff_ne_zero.mpr hne
    have : (1 : ℚ) ≤ ((xs.insertionSort (· ≤ ·)).length : ℚ) := by exact_mod_cast h1n
    linarith
  apply interp_mono (List.sorted_insertionSort _ _)
    (fun h => hne (by rw [h]; rfl))
  · exact mul_nonneg h0 hn1
  · exact mul_le_mul_of_nonneg_right hqq hn1
  · calc q' * (((xs.insertionSort (· ≤ ·)).length : ℚ) - 1)
        ≤ 1 * (((xs.insertionSort (· ≤ ·)).length : ℚ) - 1) :=
          mul_le_mul_of_nonneg_right h1 hn1
    _ = ((xs.insertionSort (· ≤ ·)).length : ℚ) - 1 := one_mul _

/-- C5: every row of the interval-stat aggregator's output satisfies
`q1 ≤ median ≤ q3` — the three quantiles of one nonempty bucket group, taken
with linear interpolation, are ordered. -/
theorem df_stats_quantile_order {K : Type} [LinearOrder K] [DecidableEq K]
    (rows : List Row) (b : Row → K) (m : Row → ℚ) :
    ∀ row ∈ df_stats rows b m, row.q1 ≤ row.med ∧ row.med ≤ row.q3 := by
  intro row hrow
  obtain ⟨k, hk, rfl⟩ := List.mem_map.mp hrow
  have hkmem : k ∈ rows.map b := by
    unfold statKeys at hk
    exact List.mem_dedup.mp ((List.perm_insertionSort _ _).mem_iff.mp hk)
  obtain ⟨r, hr, hbr⟩ := List.mem_map.mp hkmem
  have hgne : groupVals rows b m k ≠ [] := by
    unfold groupVals
    intro hnil
    rw [List.map_eq_nil_iff] at hnil
    have hrmem : r ∈ rows.filter (fun r => decide (b r = k)) :=
      List.mem_filter.mpr ⟨hr, by simp [hbr]⟩
    rw [hnil] at hrmem
    exact absurd hrmem (List.not_mem_nil r)
  constructor
  · exact quantile_mono hgne (by norm_num) (by norm_num) (by norm_num)
  · exact quantile_mono hgne (by norm_num) (by norm_num) (by norm_num)

/-- Witness for C5: the single-bucket table of `sampleRow` yields the stat
row `(2020, 400000, 400000, 400000)`, whose quantiles are ordered. -/
theorem df_stats_quantile_order_witness :
    (⟨(2020 : ℤ), 400000, 400000, 400000⟩ : StatRow ℤ).q1 ≤
      (⟨(2020 : ℤ), 400000, 400000, 400000⟩ : StatRow ℤ).med ∧
    (⟨(2020 : ℤ), 400000, 400000, 400000⟩ : StatRow ℤ).med ≤
      (⟨(2020 : ℤ), 400000, 400000, 400000⟩ : StatRow ℤ).q3 :=
  df_stats_quantile_order [sampleRow] (fun r => r.year) (fun r => r.resale_price)
    ⟨2020, 400000, 400000, 400000⟩
    (by norm_num [df_stats, statKeys, groupVals, quantile, interp, medianQ,
      sampleRow, List.insertionSort, List.orderedInsert, List.dedup_cons_of_not_mem])

/-- C6: the bucket column of the interval-stat output is strictly increasing
(hence sorted, each distinct bucket appearing exactly once), and its members
are exactly the bucket values present in the filtered table. -/
theorem df_stats_buckets {K : Type} [LinearOrder K] [DecidableEq K]
    (rows : List Row) (b : Row → K) (m : Row → ℚ) :
    ((df_stats rows b m).map StatRow.bucket).Pairwise (· < ·) ∧
    ∀ k : K, k ∈ (df_stats rows b m).map StatRow.bucket ↔ k ∈ rows.map b := by
  have hmap : (df_stats rows b m).map StatRow.bucket = statKeys rows b := by
    unfold df_stats
    rw [List.map_map]
    simp [Function.comp_def]
  rw [hmap]
  constructor
  · have hsorted : (statKeys rows b).Sorted (· ≤ ·) := by
      unfold statKeys
      exact List.sorted_insertionSort _ _
    have hnodup : (statKeys rows b).Nodup := by
      unfold statKeys
      exact ((List.perm_insertionSort _ _).nodup_iff).mpr (List.nodup_dedup _)
    exact hsorted.lt_of_le hnodup
  · intro k
    unfold statKeys
    rw [(List.perm_insertionSort _ _).mem_iff, List.mem_dedup]

/-- Filtering a town's values distributes over list append. -/
theorem townVals_append {K : Type} (l1 l2 : List (SubRow K)) (t : String) :
    townVals (l1 ++ l2) t = townVals l1 t ++ townVals l2 t := by
  unfold townVals
  rw [List.filter_append, List.map_append]

/-- Gathering one town out of the groupby-transformed table yields exactly the
rolling median of that town's own gathered series: the transform applies the
trailing window within each group and to nothing else. -/
theorem trAux_townVals {K : Type} (w : ℕ) (t : String) :
    ∀ (rest seen : List (SubRow K)),
      townVals (trAux w seen rest) t =
        rollingMedianFrom w (townVals seen t) (townVals rest t) := by
  intro rest
  induction rest with
  | nil =>
    intro seen
    simp [trAux, townVals, rollingMedianFrom]
  | cons p ps ih =>
    intro seen
    by_cases hpt : p.town = t
    · have hfilter : townVals (seen ++ [p]) t = townVals seen t ++ [p.val] := by
        rw [townVals_append]
        unfold townVals
        simp [List.filter_cons, hpt]
      rw [trAux]
      have hcons : townVals
          (({ p with val := medianQ (winLast w (townVals (seen ++ [p]) p.town)) } : SubRow K) ::
            trAux w (seen ++ [p]) ps) t =
          medianQ (winLast w (townVals (seen ++ [p]) p.town)) ::
            townVals (trAux w (seen ++ [p]) ps) t := by
        unfold townVals
        simp [List.filter_cons, hpt]
      rw [hcons, hpt, hfilter, ih (seen ++ [p]), hfilter]
      have hrhs : townVals (p :: ps) t = p.val :: townVals ps t := by
        unfold townVals
        simp [List.filter_cons, hpt]
      rw [hrhs, rollingMedianFrom]
    · have hfilter : townVals (seen ++ [p]) t = townVals seen t := by
        rw [townVals_append]
        unfold townVals
        simp [List.filter_cons, hpt]
      rw [trAux]
      have hcons : townVals
          (({ p with val := medianQ (winLast w (townVals (seen ++ [p]) p.town)) } : SubRow K) ::
            trAux w (seen ++ [p]) ps) t =
          townVals (trAux w (seen ++ [p]) ps) t := by
        unfold townVals
        simp [List.filter_cons, hpt]
      rw [hcons, ih (seen ++ [p]), hfilter]
      have hrhs : townVals (p :: ps) t = townVals ps t := by
        unfold townVals
        simp [List.filter_cons, hpt]
      rw [hrhs]

/-- The rolling median produces one value per input position
(`min_periods=1`: no position is left empty). -/
theorem rollingMedianFrom_length (w : ℕ) :
    ∀ (xs pre : List ℚ), (rollingMedianFrom w pre xs).length = xs.length := by
  intro xs
  induction xs with
  | nil => intro pre; rfl
  | cons x xs ih =>
    intro pre
    simp [rollingMedianFrom, ih]

/-- Positional characterization of the rolling median: the `i`-th output is
the median of the trailing window of width at most `w` ending at position `i`
of `pre ++ xs`. -/
theorem rollingMedianFrom_getD (w : ℕ) :
    ∀ (xs pre : List ℚ) (i : ℕ), i < xs.length →
      (rollingMedianFrom w pre xs).getD i 0 =
        medianQ (winLast w (pre ++ xs.take (i + 1))) := by
  intro xs
  induction xs with
  | nil =>
    intro pre i hi
    simp at hi
  | cons x xs ih =>
    intro pre i hi
    cases i with
    | zero =>
      simp [rollingMedianFrom]
    | succ i =>
      rw [rollingMedianFrom, List.getD_cons_succ, ih (pre ++ [x]) i (by simpa using hi),
        List.append_assoc]
      rfl

/-- A window never wider than the data is the whole data: with
`min_periods=1` the first `w - 1` positions use a shrinking window. -/
theorem winLast_small (w : ℕ) (l : List ℚ) (h : l.length ≤ w) : winLast w l = l := by
  unfold winLast
  rw [Nat.sub_eq_zero_of_le h, List.drop_zero]

/-- C9: (i) gathering any town `t` out of the smoothed town breakdown yields
exactly the trailing rolling median (window `smooth_window = 5`,
`min_periods=1`) of that town's raw per-bucket median series; (ii) the
underlying `df_geo` rows are the region-filtered plain group medians; (iii)
the rolling median keeps the series length and, at position `i`, is the median
of the trailing window `winLast`, which for the first `w - 1` positions is the
whole (shrinking) prefix; (iv) every plain two-key breakdown (region,
flat_type, lease_commence_bin, storey_range_bin — any dimension) outputs the
unsmoothed group medians. -/
theorem town_smoothing {K : Type} [LinearOrder K] [DecidableEq K]
    (rows : List Row) (b : Row → K) (m : Row → ℚ) (location : String) :
    (∀ t : String, townVals (breakdown_town rows b m location) t =
      rollingMedian smooth_window (townVals (df_geo rows b m location) t)) ∧
    (∀ p ∈ df_geo rows b m location, p.loc = location ∧
      p.val = medianQ ((rows.filter (fun r => decide (b r = p.bucket) &&
        decide (r.geographical_location = p.loc) && decide (r.town = p.town))).map m)) ∧
    (∀ s : List ℚ, (rollingMedian smooth_window s).length = s.length ∧
      ∀ i : ℕ, i < s.length →
        (rollingMedian smooth_window s).getD i 0 =
          medianQ (winLast smooth_window (s.take (i + 1))) ∧
        (i + 1 ≤ smooth_window → winLast smooth_window (s.take (i + 1)) = s.take (i + 1))) ∧
    (∀ dim : Row → String, ∀ p ∈ df_sub_by rows b m dim,
      p.2.2 = medianQ ((rows.filter (fun r => decide (b r = p.1) &&
        decide (dim r = p.2.1))).map m)) := by
  refine ⟨fun t => ?_, fun p hp => ?_, fun s => ⟨?_, fun i hi => ⟨?_, fun hiw => ?_⟩⟩,
    fun dim p hp => ?_⟩
  · unfold breakdown_town transformRolling rollingMedian
    rw [trAux_townVals smooth_window t (df_geo rows b m location) []]
    rfl
  · obtain ⟨hpd, hploc⟩ := List.mem_filter.mp hp
    obtain ⟨key, _hkey, rfl⟩ := List.mem_map.mp hpd
    exact ⟨of_decide_eq_true hploc, rfl⟩
  · exact rollingMedianFrom_length smooth_window s []
  · rw [rollingMedian, rollingMedianFrom_getD smooth_window s [] i hi, List.nil_append]
  · exact winLast_small smooth_window _ (le_trans (List.length_take_le _ _) hiw)
  · obtain ⟨key, _hkey, rfl⟩ := List.mem_map.mp hp
    rfl

/-- Witness for C9 at a concrete two-town table: gathering town `BEDOK` out of
the smoothed Central/East breakdown equals the rolling median of its raw
series. -/
theorem town_smoothing_witness :
    townVals (breakdown_town [sampleRow, sampleRow2]
        (fun r => r.year) (fun r => r.resale_price) "East") "BEDOK" =
      rollingMedian smooth_window
        (townVals (df_geo [sampleRow, sampleRow2]
          (fun r => r.year) (fun r => r.resale_price) "East") "BEDOK") :=
  (town_smoothing [sampleRow, sampleRow2]
    (fun r => r.year) (fun r => r.resale_price) "East").1 "BEDOK"

end HDB
